import Mathlib

/-!
Verification of the asset-state reconstruction engine of the Digital Asset
Registry dApp.  The definitions below are a shallow embedding of the read-side
logic found in `src/utils/contract.ts`, `src/utils/web3.ts` and the asset
loader module (`loadAllAssets` / `loadAsset` / `loadMyAssets` /
`loadAccessibleAssets`).

Modelling conventions:
* Every ledger read (an ethers.js contract call) may fail; it is modelled as a
  function into `Except ReadErr _`.  A thrown JS exception is `Except.error`.
* A `Ledger` bundles the raw read accessors.  The event log of an asset is one
  ordered list (ledger emission order); the source's two `queryFilter` calls
  (`PermissionGranted`, `PermissionRevoked`) are modelled as filtering that
  list by kind, which preserves the per-kind emission order that ethers
  returns.
* JavaScript `Set<string>` preserves insertion order, so the permission set is
  a duplicate-free `List String` with `setAdd` / `setDelete`.
* Date formatting (`new Date(ts*1000).toISOString()` etc.) is display-only and
  kept as the raw numeric timestamp.
* The unbounded `while (true)` probe loop of `loadAllAssets` is given explicit
  fuel; all claims are stated with sufficient fuel.
-/

/-- Error classes a ledger read can raise.  `decodeErr` stands for the
BAD_DATA / "could not decode result data" / "execution reverted" family the
source sniffs for; `transientErr` is a network/provider failure. -/
inductive ReadErr where
  | decodeErr
  | transientErr
  | otherErr
deriving DecidableEq, Repr

/-- Mirror of the `AssetData` interface in `contract.ts` (result of
`viewAsset`). -/
structure AssetData where
  id : Nat
  name : String
  assetType : String
  description : String
  assetURI : String
  author : String
  owner : String
  creationTimestamp : Nat
deriving DecidableEq, Repr

/-- Mirror of the `UsageEntry` interface in `contract.ts`. -/
structure UsageEntry where
  actor : String
  timestamp : Nat
  description : String
deriving DecidableEq, Repr

inductive PermKind where
  | grant
  | revoke
deriving DecidableEq, Repr

/-- One entry of the asset's permission event log (a `PermissionGranted` or
`PermissionRevoked` ledger event). -/
structure PermEvent where
  kind : PermKind
  grantee : String
deriving DecidableEq, Repr

/-- Mirror of the `UsageLog` UI shape built by `loadUsageLogs`. -/
structure UsageLog where
  id : String
  user : String
  timestamp : Nat
  description : String
deriving DecidableEq, Repr

/-- Mirror of the `Asset` UI shape assembled by the loaders. -/
structure Asset where
  id : String
  name : String
  type : String
  description : String
  author : String
  owner : String
  createdAt : Nat
  permissions : List String
  usageLogs : List UsageLog
deriving DecidableEq, Repr

/-- The raw read interface of the contract, as consumed by `contract.ts`.
`permEvents` is the asset's full permission event log in ledger emission
order; `hasPermissionRaw` is the raw `contract.hasPermission` call. -/
structure Ledger where
  viewAsset : Nat → Except ReadErr AssetData
  permEvents : Nat → Except ReadErr (List PermEvent)
  usageCount : Nat → Except ReadErr Nat
  viewUsageEntry : Nat → Nat → Except ReadErr UsageEntry
  hasPermissionRaw : Nat → String → Except ReadErr Bool

/-- The all-zero sentinel owner address
(`0x0000000000000000000000000000000000000000`). -/
def zeroAddress : String := "0x0000000000000000000000000000000000000000"

/-- The end-of-table check of `loadAllAssets`:
`!assetData.owner || assetData.owner === '0x000...000'`. -/
def isSentinelOwner (owner : String) : Bool :=
  owner == "" || owner == zeroAddress

/-- JavaScript `a || b` on strings (falsy = empty string), as used in the
metadata fallbacks of the asset assembly. -/
def jsOr (a b : String) : String :=
  if a = "" then b else a

/-- JavaScript `.toLowerCase()`, written over the character list so it is
kernel-reducible. -/
def toLowerStr (s : String) : String :=
  String.mk (s.data.map Char.toLower)

/-- `t` begins the list `s`. -/
def charsStartWith (t s : List Char) : Bool :=
  match t, s with
  | [], _ => true
  | _ :: _, [] => false
  | a :: t', b :: s' => a == b && charsStartWith t' s'

/-- `t` occurs contiguously inside `s`. -/
def charsContain (s t : List Char) : Bool :=
  match s with
  | [] => charsStartWith t []
  | c :: s' => charsStartWith t (c :: s') || charsContain s' t

/-- JavaScript `s.includes(t)`. -/
def includesSubstr (s t : String) : Bool :=
  charsContain s.data t.data

/-- `mapAssetType` from the asset loader module. -/
def mapAssetType (assetType : String) : String :=
  let normalized := toLowerStr assetType
  if includesSubstr normalized "dataset" then "dataset"
  else if includesSubstr normalized "model" then "model"
  else if includesSubstr normalized "project" then "project"
  else if includesSubstr normalized "report" then "report"
  else "dataset"

/-- `getUsageCount` from `contract.ts`: the count read, with any failure
swallowed into 0. -/
def getUsageCount (l : Ledger) (assetId : Nat) : Nat :=
  match l.usageCount assetId with
  | Except.ok n => n
  | Except.error _ => 0

/-- The indexed read loop inside `getAllUsageEntries`: read entries at
indices `i, i+1, ...` (`k` of them); the first throwing read aborts the
whole loop with its error (the `try` block spans the entire loop). -/
def readUsageEntriesFrom (l : Ledger) (assetId : Nat) : Nat → Nat → Except ReadErr (List UsageEntry)
  | _, 0 => Except.ok []
  | i, k + 1 =>
    match l.viewUsageEntry assetId i with
    | Except.error e => Except.error e
    | Except.ok entry =>
      match readUsageEntriesFrom l assetId (i + 1) k with
      | Except.error e => Except.error e
      | Except.ok rest => Except.ok (entry :: rest)

/-- `getAllUsageEntries` from `contract.ts`: read the count (0 on count
failure), then the indexed entries; any error in the loop is caught and
turned into an empty list. -/
def getAllUsageEntries (l : Ledger) (assetId : Nat) : List UsageEntry :=
  match readUsageEntriesFrom l assetId 0 (getUsageCount l assetId) with
  | Except.ok es => es
  | Except.error _ => []

/-- JS `Set.add` on an insertion-ordered duplicate-free list. -/
def setAdd (s : List String) (x : String) : List String :=
  if x ∈ s then s else s ++ [x]

/-- JS `Set.delete` on an insertion-ordered duplicate-free list. -/
def setDelete (s : List String) (x : String) : List String :=
  s.filter (fun y => y != x)

/-- The grant pass of `getAssetPermissions`
(`grantedEvents.forEach(e => permissions.add(e.args.grantee.toLowerCase()))`). -/
def grantFold (s : List String) (granted : List PermEvent) : List String :=
  granted.foldl (fun s e => setAdd s (toLowerStr e.grantee)) s

/-- The revoke pass of `getAssetPermissions`: delete the normalized grantee
unless it equals the normalized owner. -/
def revokeFold (ownerLower : String) (s : List String) (revoked : List PermEvent) : List String :=
  revoked.foldl
    (fun s e =>
      let r := toLowerStr e.grantee
      if r ≠ ownerLower then setDelete s r else s)
    s

/-- The set construction of `getAssetPermissions` (lines 323–336 of
`contract.ts`): seed with the lowercased owner, add every granted event's
grantee, then remove every revoked event's grantee except the owner. -/
def buildPermissionSet (owner : String) (granted revoked : List PermEvent) : List String :=
  revokeFold (toLowerStr owner) (grantFold [toLowerStr owner] granted) revoked

/-- The body of the `try` block of `getAssetPermissions`: read the asset (for
its owner), read the two event streams, and build the permission set.  Any
read failure escapes as the error. -/
def getAssetPermissionsE (l : Ledger) (assetId : Nat) : Except ReadErr (List String) :=
  match l.viewAsset assetId with
  | Except.error e => Except.error e
  | Except.ok asset =>
    match l.permEvents assetId with
    | Except.error e => Except.error e
    | Except.ok events =>
      Except.ok
        (buildPermissionSet asset.owner
          (events.filter (fun e => e.kind == PermKind.grant))
          (events.filter (fun e => e.kind == PermKind.revoke)))

/-- `getAssetPermissions` from `contract.ts`: the `catch` clause maps every
error to an empty array. -/
def getAssetPermissions (l : Ledger) (assetId : Nat) : List String :=
  match getAssetPermissionsE l assetId with
  | Except.ok ps => ps
  | Except.error _ => []

/-- `hasPermission` from `contract.ts`: any read failure is caught and
reported as `false`. -/
def hasPermission (l : Ledger) (assetId : Nat) (userAddress : String) : Bool :=
  match l.hasPermissionRaw assetId userAddress with
  | Except.ok b => b
  | Except.error _ => false

/-- `loadUsageLogs` from the asset loader: map the (failure-swallowing)
usage entries to the UI shape; its own catch clause is unreachable because
`getAllUsageEntries` never throws. -/
def loadUsageLogs (l : Ledger) (assetId : Nat) : List UsageLog :=
  (getAllUsageEntries l assetId).enum.map
    (fun p =>
      { id := toString assetId ++ "-" ++ toString p.1
        user := p.2.actor
        timestamp := p.2.timestamp
        description := p.2.description })

/-- The per-asset assembly shared by `loadAllAssets` and `loadAsset`:
metadata from the contract data, permissions from `getAssetPermissions`,
usage logs from `loadUsageLogs`. -/
def assembleAsset (l : Ledger) (assetId : Nat) (assetData : AssetData) : Asset :=
  let metaName := assetData.name
  let metaType := mapAssetType assetData.assetType
  let metaDescription := assetData.description
  { id := toString assetId
    name := jsOr metaName assetData.name
    type := jsOr metaType (mapAssetType assetData.assetType)
    description := jsOr metaDescription assetData.description
    author := assetData.author
    owner := assetData.owner
    createdAt := assetData.creationTimestamp
    permissions := getAssetPermissions l assetId
    usageLogs := loadUsageLogs l assetId }

/-- The `while (true)` probe loop of `loadAllAssets`, with explicit fuel.
A successful read with a sentinel owner breaks; ANY thrown read error is
caught and also breaks (the catch clause inspects the error class only to
log, then breaks unconditionally); otherwise the asset is assembled,
appended, and the next id is probed. -/
def loadAllAssetsAux (l : Ledger) : Nat → Nat → List Asset → List Asset
  | 0, _, assets => assets
  | fuel + 1, assetId, assets =>
    match l.viewAsset assetId with
    | Except.error _ => assets
    | Except.ok assetData =>
      if isSentinelOwner assetData.owner then assets
      else loadAllAssetsAux l fuel (assetId + 1) (assets ++ [assembleAsset l assetId assetData])

/-- `loadAllAssets` from the asset loader: probe ids starting at 1. -/
def loadAllAssets (l : Ledger) (fuel : Nat) : List Asset :=
  loadAllAssetsAux l fuel 1 []

/-- `loadMyAssets`: filter `loadAllAssets` by case-insensitive owner
equality. -/
def loadMyAssets (l : Ledger) (fuel : Nat) (walletAddress : String) : List Asset :=
  (loadAllAssets l fuel).filter
    (fun asset => toLowerStr asset.owner == toLowerStr walletAddress)

/-- `loadAccessibleAssets`: filter `loadAllAssets` to assets whose owner
matches or whose permission list contains the wallet, case-insensitively. -/
def loadAccessibleAssets (l : Ledger) (fuel : Nat) (walletAddress : String) : List Asset :=
  (loadAllAssets l fuel).filter
    (fun asset =>
      toLowerStr asset.owner == toLowerStr walletAddress ||
      asset.permissions.any (fun addr => toLowerStr addr == toLowerStr walletAddress))

/-- `loadAsset` from the asset loader: a throwing read yields `none`
(`null`); a successful read — with NO sentinel-owner check — yields the
assembled asset.  `loadUsageLogs` and `getAssetPermissions` never throw, so
only `viewAsset` decides the outcome. -/
def loadAsset (l : Ledger) (assetId : Nat) : Option Asset :=
  match l.viewAsset assetId with
  | Except.error _ => none
  | Except.ok assetData => some (assembleAsset l assetId assetData)

/-! Concrete ledger fixtures used to instantiate the theorems. -/

/-- A registered asset owned by `0xAA`. -/
def denseAsset1 : AssetData :=
  { id := 1
    name := "alpha"
    assetType := "Dataset"
    description := "d1"
    assetURI := "ipfs://a1"
    author := "0xAA"
    owner := "0xAA"
    creationTimestamp := 100 }

/-- The record the contract returns past the end of the dense table: the
sentinel all-zero owner. -/
def sentinelAssetData : AssetData :=
  { id := 2
    name := ""
    assetType := ""
    description := ""
    assetURI := ""
    author := zeroAddress
    owner := zeroAddress
    creationTimestamp := 0 }

/-- A healthy ledger with exactly one asset: id 1 is owned by `0xAA` with a
grant for `0xBB`; id 2 carries the sentinel owner; higher ids decode-fail. -/
def denseLedger : Ledger :=
  { viewAsset := fun assetId =>
      match assetId with
      | 1 => Except.ok denseAsset1
      | 2 => Except.ok sentinelAssetData
      | _ => Except.error ReadErr.decodeErr
    permEvents := fun assetId =>
      match assetId with
      | 1 => Except.ok [{ kind := PermKind.grant, grantee := "0xBB" }]
      | _ => Except.ok []
    usageCount := fun _ => Except.ok 0
    viewUsageEntry := fun _ _ => Except.error ReadErr.decodeErr
    hasPermissionRaw := fun _ _ => Except.ok false }

/-- A ledger whose provider is unreachable: every read raises a transient
(network) error. -/
def unreachableLedger : Ledger :=
  { viewAsset := fun _ => Except.error ReadErr.transientErr
    permEvents := fun _ => Except.error ReadErr.transientErr
    usageCount := fun _ => Except.error ReadErr.transientErr
    viewUsageEntry := fun _ _ => Except.error ReadErr.transientErr
    hasPermissionRaw := fun _ _ => Except.error ReadErr.transientErr }

/-- A ledger whose asset read works but whose permission-event source is
unreadable. -/
def eventsDownLedger : Ledger :=
  { viewAsset := fun assetId =>
      match assetId with
      | 1 => Except.ok denseAsset1
      | _ => Except.error ReadErr.decodeErr
    permEvents := fun _ => Except.error ReadErr.transientErr
    usageCount := fun _ => Except.ok 0
    viewUsageEntry := fun _ _ => Except.error ReadErr.decodeErr
    hasPermissionRaw := fun _ _ => Except.ok false }

/-- A ledger exercising event ordering: asset 1 (owner `0xAA`) has the event
log [Grant(0xBB), Revoke(0xBB), Grant(0xBB)]; asset 2 (owner `0xAA`) has
[Grant(0xBB), Grant(0xCC), Revoke(0xBB)]. -/
def reorderLedger : Ledger :=
  { viewAsset := fun assetId =>
      match assetId with
      | 1 => Except.ok denseAsset1
      | 2 => Except.ok { denseAsset1 with id := 2 }
      | _ => Except.error ReadErr.decodeErr
    permEvents := fun assetId =>
      match assetId with
      | 1 => Except.ok
          [{ kind := PermKind.grant, grantee := "0xBB" },
           { kind := PermKind.revoke, grantee := "0xBB" },
           { kind := PermKind.grant, grantee := "0xBB" }]
      | 2 => Except.ok
          [{ kind := PermKind.grant, grantee := "0xBB" },
           { kind := PermKind.grant, grantee := "0xCC" },
           { kind := PermKind.revoke, grantee := "0xBB" }]
      | _ => Except.ok []
    usageCount := fun _ => Except.ok 0
    viewUsageEntry := fun _ _ => Except.error ReadErr.decodeErr
    hasPermissionRaw := fun _ _ => Except.ok false }

/-- A ledger on which reading id 1 SUCCEEDS but returns the sentinel all-zero
owner (the situation `loadAllAssets` treats as end-of-data). -/
def sentinelOkLedger : Ledger :=
  { viewAsset := fun assetId =>
      match assetId with
      | 1 => Except.ok sentinelAssetData
      | _ => Except.error ReadErr.decodeErr
    permEvents := fun _ => Except.ok []
    usageCount := fun _ => Except.ok 0
    viewUsageEntry := fun _ _ => Except.error ReadErr.decodeErr
    hasPermissionRaw := fun _ _ => Except.ok false }

/-- A usage entry used by the mid-sequence-failure fixture. -/
def entry0 : UsageEntry :=
  { actor := "0xEE", timestamp := 5, description := "first use" }

/-- A ledger whose usage count reads 2 and whose entry 0 reads fine, but whose
entry 1 read fails transiently mid-sequence. -/
def usageFailLedger : Ledger :=
  { viewAsset := fun assetId =>
      match assetId with
      | 1 => Except.ok denseAsset1
      | _ => Except.error ReadErr.decodeErr
    permEvents := fun _ => Except.ok []
    usageCount := fun assetId =>
      match assetId with
      | 1 => Except.ok 2
      | _ => Except.ok 0
    viewUsageEntry := fun assetId index =>
      match assetId, index with
      | 1, 0 => Except.ok entry0
      | _, _ => Except.error ReadErr.transientErr
    hasPermissionRaw := fun _ _ => Except.ok false }

/-! Theorems. -/

/-- C1 counterexample: on a ledger whose provider raises a transient network
error on the very first probe, `loadAllAssets` returns the empty list instead
of propagating the error (its catch clause breaks the loop for every error
class). -/
theorem loadAllAssets_transient_first_probe_returns_empty :
    unreachableLedger.viewAsset 1 = Except.error ReadErr.transientErr ∧
    loadAllAssets unreachableLedger 10 = [] :=
  ⟨rfl, rfl⟩

/-- C1 (amended): `loadAllAssets` treats EVERY read failure — decode-class or
not — as end-of-data: any error on the probe of `assetId` stops the loop and
returns the assets accumulated so far; in particular an error on the first
probe yields the empty list, never a propagated error. -/
theorem loadAllAssets_any_error_ends_enumeration :
    (∀ (l : Ledger) (fuel assetId : Nat) (assets : List Asset) (e : ReadErr),
        l.viewAsset assetId = Except.error e →
        loadAllAssetsAux l (fuel + 1) assetId assets = assets) ∧
    (∀ (l : Ledger) (fuel : Nat) (e : ReadErr),
        l.viewAsset 1 = Except.error e →
        loadAllAssets l (fuel + 1) = []) := by
  constructor
  · intro l fuel assetId assets e h
    simp [loadAllAssetsAux, h]
  · intro l fuel e h
    simp [loadAllAssets, loadAllAssetsAux, h]

/-- Witness for C1's amended theorem at the unreachable ledger. -/
theorem loadAllAssets_any_error_ends_enumeration_witness :
    loadAllAssets unreachableLedger 10 = [] :=
  loadAllAssets_any_error_ends_enumeration.2 unreachableLedger 9 ReadErr.transientErr rfl

/-- C3 counterexample: with the asset readable but the permission-event
source unreadable (transient error), `getAssetPermissions` silently returns
the empty array instead of failing. -/
theorem getAssetPermissions_unreadable_returns_empty :
    eventsDownLedger.viewAsset 1 = Except.ok denseAsset1 ∧
    eventsDownLedger.permEvents 1 = Except.error ReadErr.transientErr ∧
    getAssetPermissions eventsDownLedger 1 = [] :=
  ⟨rfl, rfl, rfl⟩

/-- C3 (amended): whenever the body of `getAssetPermissions` fails (asset
read or event read), the catch clause swallows the error and the caller
receives an empty array; no error propagates. -/
theorem getAssetPermissions_swallows_errors (l : Ledger) (assetId : Nat) (e : ReadErr)
    (h : getAssetPermissionsE l assetId = Except.error e) :
    getAssetPermissions l assetId = [] := by
  simp [getAssetPermissions, h]

/-- Witness for C3's amended theorem at the events-down ledger. -/
theorem getAssetPermissions_swallows_errors_witness :
    getAssetPermissions eventsDownLedger 1 = [] :=
  getAssetPermissions_swallows_errors eventsDownLedger 1 ReadErr.transientErr rfl

/-- C6 counterexample: on a ledger where reading id 1 succeeds with the
sentinel all-zero owner, `loadAsset` does NOT return NotFound: it returns an
assembled asset whose owner is the sentinel value. -/
theorem loadAsset_sentinel_owner_returns_asset :
    sentinelOkLedger.viewAsset 1 = Except.ok sentinelAssetData ∧
    sentinelAssetData.owner = zeroAddress ∧
    (loadAsset sentinelOkLedger 1).map Asset.owner = some zeroAddress :=
  ⟨rfl, rfl, rfl⟩

/-- C6 (amended): `loadAsset` performs no sentinel-owner check: it returns
`none` exactly when the underlying asset read throws (for an id past the end
of the dense table that read fails with a decode error), and returns the
assembled asset for every successful read — including one whose owner is the
sentinel all-zero value. -/
theorem loadAsset_mirrors_read_outcome (l : Ledger) (assetId : Nat) :
    (∀ assetData, l.viewAsset assetId = Except.ok assetData →
        loadAsset l assetId = some (assembleAsset l assetId assetData)) ∧
    (∀ e, l.viewAsset assetId = Except.error e → loadAsset l assetId = none) := by
  constructor
  · intro assetData h
    simp [loadAsset, h]
  · intro e h
    simp [loadAsset, h]

/-- Witness for C6's amended theorem: the sentinel-owner read still yields an
assembled asset, and a decode failure yields `none`. -/
theorem loadAsset_mirrors_read_outcome_witness :
    loadAsset sentinelOkLedger 1 = some (assembleAsset sentinelOkLedger 1 sentinelAssetData) ∧
    loadAsset sentinelOkLedger 2 = none :=
  ⟨(loadAsset_mirrors_read_outcome sentinelOkLedger 1).1 sentinelAssetData rfl,
   (loadAsset_mirrors_read_outcome sentinelOkLedger 2).2 ReadErr.decodeErr rfl⟩

/-- C7 counterexample: the usage count reads 2 and entry 0 reads fine, yet a
transient failure on entry 1 makes `getAllUsageEntries` return the EMPTY
list: the successfully read prefix `[entry0]` is discarded and no error
signal reaches the caller. -/
theorem getAllUsageEntries_partial_prefix_lost :
    usageFailLedger.usageCount 1 = Except.ok 2 ∧
    usageFailLedger.viewUsageEntry 1 0 = Except.ok entry0 ∧
    usageFailLedger.viewUsageEntry 1 1 = Except.error ReadErr.transientErr ∧
    getAllUsageEntries usageFailLedger 1 = [] :=
  ⟨rfl, rfl, rfl, rfl⟩

/-- C7 (amended): when any indexed usage-entry read fails mid-sequence, the
catch clause of `getAllUsageEntries` discards everything read so far and
returns an empty list; no partial-result signal is produced. -/
theorem getAllUsageEntries_error_discards_prefix (l : Ledger) (assetId : Nat) (e : ReadErr)
    (h : readUsageEntriesFrom l assetId 0 (getUsageCount l assetId) = Except.error e) :
    getAllUsageEntries l assetId = [] := by
  simp [getAllUsageEntries, h]

/-- Witness for C7's amended theorem at the mid-sequence-failure ledger. -/
theorem getAllUsageEntries_error_discards_prefix_witness :
    getAllUsageEntries usageFailLedger 1 = [] :=
  getAllUsageEntries_error_discards_prefix usageFailLedger 1 ReadErr.transientErr rfl

/-- C10: `hasPermission` catches every underlying read failure and reports
`false`, exactly the value it reports for a successful read that denies the
permission — a transient failure is indistinguishable from absence of
permission at this interface. -/
theorem hasPermission_error_reports_false :
    (∀ (l : Ledger) (assetId : Nat) (userAddress : String) (e : ReadErr),
        l.hasPermissionRaw assetId userAddress = Except.error e →
        hasPermission l assetId userAddress = false) ∧
    (∀ (l : Ledger) (assetId : Nat) (userAddress : String),
        l.hasPermissionRaw assetId userAddress = Except.ok false →
        hasPermission l assetId userAddress = false) := by
  constructor
  · intro l assetId userAddress e h
    simp [hasPermission, h]
  · intro l assetId userAddress h
    simp [hasPermission, h]

/-- Witness for C10 at the unreachable ledger and at a denying ledger. -/
theorem hasPermission_error_reports_false_witness :
    hasPermission unreachableLedger 1 "0xBB" = false ∧
    hasPermission denseLedger 1 "0xBB" = false :=
  ⟨hasPermission_error_reports_false.1 unreachableLedger 1 "0xBB" ReadErr.transientErr rfl,
   hasPermission_error_reports_false.2 denseLedger 1 "0xBB" rfl⟩

/-! Lemmas about the permission-set folds. -/

theorem grantFold_nil (s : List String) : grantFold s [] = s := rfl

theorem grantFold_cons (s : List String) (e : PermEvent) (t : List PermEvent) :
    grantFold s (e :: t) = grantFold (setAdd s (toLowerStr e.grantee)) t := rfl

theorem revokeFold_nil (ownerLower : String) (s : List String) :
    revokeFold ownerLower s [] = s := rfl

theorem revokeFold_cons (ownerLower : String) (s : List String) (e : PermEvent) (t : List PermEvent) :
    revokeFold ownerLower s (e :: t) =
      revokeFold ownerLower
        (if toLowerStr e.grantee ≠ ownerLower then setDelete s (toLowerStr e.grantee) else s) t := rfl

theorem mem_setAdd_of_mem {x : String} {s : List String} (y : String) (h : x ∈ s) :
    x ∈ setAdd s y := by
  unfold setAdd
  split
  · exact h
  · exact List.mem_append_left _ h

theorem mem_grantFold_of_mem {x : String} (granted : List PermEvent) :
    ∀ {s : List String}, x ∈ s → x ∈ grantFold s granted := by
  induction granted with
  | nil => intro s h; simpa [grantFold_nil] using h
  | cons e t ih =>
    intro s h
    rw [grantFold_cons]
    exact ih (mem_setAdd_of_mem _ h)

theorem not_mem_setDelete_self (s : List String) (x : String) : x ∉ setDelete s x := by
  simp [setDelete]

theorem mem_setDelete_of_ne {x y : String} {s : List String} (h : x ∈ s) (hne : x ≠ y) :
    x ∈ setDelete s y := by
  simp [setDelete, h, hne]

theorem not_mem_setDelete_of_not_mem {x y : String} {s : List String} (h : x ∉ s) :
    x ∉ setDelete s y := by
  intro hx
  exact h (List.mem_filter.mp hx).1

theorem not_mem_revokeFold_of_not_mem {x ownerLower : String} (revoked : List PermEvent) :
    ∀ {s : List String}, x ∉ s → x ∉ revokeFold ownerLower s revoked := by
  induction revoked with
  | nil => intro s h; simpa [revokeFold_nil] using h
  | cons e t ih =>
    intro s h
    rw [revokeFold_cons]
    apply ih
    split
    · exact not_mem_setDelete_of_not_mem h
    · exact h

theorem mem_revokeFold_owner {ownerLower : String} (revoked : List PermEvent) :
    ∀ {s : List String}, ownerLower ∈ s → ownerLower ∈ revokeFold ownerLower s revoked := by
  induction revoked with
  | nil => intro s h; simpa [revokeFold_nil] using h
  | cons e t ih =>
    intro s h
    rw [revokeFold_cons]
    apply ih
    by_cases hr : toLowerStr e.grantee ≠ ownerLower
    · rw [if_pos hr]
      exact mem_setDelete_of_ne h (Ne.symm hr)
    · rw [if_neg hr]
      exact h

theorem revoked_nonowner_not_mem_revokeFold {ownerLower : String} (revoked : List PermEvent)
    (e : PermEvent) (he : e ∈ revoked) (hne : toLowerStr e.grantee ≠ ownerLower) :
    ∀ (s : List String), toLowerStr e.grantee ∉ revokeFold ownerLower s revoked := by
  induction revoked with
  | nil => cases he
  | cons a t ih =>
    intro s
    rcases List.mem_cons.mp he with h1 | h2
    · subst h1
      rw [revokeFold_cons, if_pos hne]
      exact not_mem_revokeFold_of_not_mem t (not_mem_setDelete_self s _)
    · rw [revokeFold_cons]
      exact ih h2 _

/-- Any address that is revoked anywhere in the stream and does not normalize
to the owner is absent from the built permission set, no matter where its
grants occur: the code replays all grants first and all revokes second. -/
theorem buildPermissionSet_revoked_absent (owner : String) (granted revoked : List PermEvent)
    (e : PermEvent) (he : e ∈ revoked) (hne : toLowerStr e.grantee ≠ toLowerStr owner) :
    toLowerStr e.grantee ∉ buildPermissionSet owner granted revoked :=
  revoked_nonowner_not_mem_revokeFold revoked e he hne _

/-- C2 counterexample: for owner `0xAA`, replaying the emission-ordered log
[Grant(0xBB), Revoke(0xBB), Grant(0xBB)] yields `{0xaa}` — the grant emitted
AFTER the revoke does not survive, because the code consumes all grants
first and all revokes second rather than in emission order. -/
theorem grant_after_revoke_does_not_survive :
    reorderLedger.permEvents 1 =
      Except.ok
        [{ kind := PermKind.grant, grantee := "0xBB" },
         { kind := PermKind.revoke, grantee := "0xBB" },
         { kind := PermKind.grant, grantee := "0xBB" }] ∧
    getAssetPermissions reorderLedger 1 = ["0xaa"] :=
  ⟨rfl, rfl⟩

/-- C2 (amended): the reconciler does not consume events in ledger emission
order; it applies every Grant first and every Revoke second.  Hence any
revoked non-owner address is absent from the result regardless of later
grants: [Grant(B), Revoke(B), Grant(B)] against owner A yields `{A}`, while
[Grant(B), Grant(C), Revoke(B)] still yields `{A, C}`. -/
theorem getAssetPermissions_grants_before_revokes :
    (∀ (owner : String) (granted revoked : List PermEvent) (e : PermEvent),
        e ∈ revoked → toLowerStr e.grantee ≠ toLowerStr owner →
        toLowerStr e.grantee ∉ buildPermissionSet owner granted revoked) ∧
    getAssetPermissions reorderLedger 1 = ["0xaa"] ∧
    getAssetPermissions reorderLedger 2 = ["0xaa", "0xcc"] :=
  ⟨fun owner granted revoked e he hne =>
      buildPermissionSet_revoked_absent owner granted revoked e he hne,
   rfl, rfl⟩

/-- Witness for C2's amended theorem: a concrete revoked grantee is absent. -/
theorem getAssetPermissions_grants_before_revokes_witness :
    toLowerStr "0xBB" ∉
      buildPermissionSet "0xAA"
        [{ kind := PermKind.grant, grantee := "0xBB" }]
        [{ kind := PermKind.revoke, grantee := "0xBB" }] :=
  getAssetPermissions_grants_before_revokes.1 "0xAA"
    [{ kind := PermKind.grant, grantee := "0xBB" }]
    [{ kind := PermKind.revoke, grantee := "0xBB" }]
    { kind := PermKind.revoke, grantee := "0xBB" }
    (List.mem_singleton.mpr rfl) (by decide)

/-- C4: on every successful reconciliation the normalized owner address is a
member of the resulting permission set (it is seeded first and revokes of the
owner are skipped); in particular reconciling `[Revoke(0xAA)]` against owner
`0xAA` is a no-op and yields `{0xaa}`. -/
theorem owner_always_in_permission_set :
    (∀ (l : Ledger) (assetId : Nat) (assetData : AssetData) (ps : List String),
        l.viewAsset assetId = Except.ok assetData →
        getAssetPermissionsE l assetId = Except.ok ps →
        toLowerStr assetData.owner ∈ ps) ∧
    buildPermissionSet "0xAA" [] [{ kind := PermKind.revoke, grantee := "0xAA" }] = ["0xaa"] := by
  constructor
  · intro l assetId assetData ps hv hp
    unfold getAssetPermissionsE at hp
    rw [hv] at hp
    cases hev : l.permEvents assetId with
    | error e => rw [hev] at hp; cases hp
    | ok events =>
      rw [hev] at hp
      cases hp
      apply mem_revokeFold_owner
      apply mem_grantFold_of_mem
      exact List.mem_singleton.mpr rfl
  · rfl

/-- Witness for C4 at the healthy ledger: the owner 0xAA appears (lowercased)
in the reconciled set of asset 1. -/
theorem owner_always_in_permission_set_witness :
    toLowerStr denseAsset1.owner ∈ ["0xaa", "0xbb"] :=
  owner_always_in_permission_set.1 denseLedger 1 denseAsset1 ["0xaa", "0xbb"] rfl rfl

/-! The dense-prefix enumeration property. -/

/-- The probe loop, started at `start` with accumulator `acc`, appends exactly
the ids `start, start+1, …, start+k-1` when those `k` probes succeed with
non-sentinel owners and probe `start+k` succeeds with a sentinel owner. -/
theorem loadAllAssetsAux_dense (l : Ledger) :
    ∀ (k fuel start : Nat) (acc : List Asset), k < fuel →
      (∀ j, j < k → ∃ ad, l.viewAsset (start + j) = Except.ok ad ∧
          isSentinelOwner ad.owner = false) →
      (∃ ad, l.viewAsset (start + k) = Except.ok ad ∧ isSentinelOwner ad.owner = true) →
      (loadAllAssetsAux l fuel start acc).map Asset.id =
        acc.map Asset.id ++ (List.range k).map (fun j => toString (start + j)) := by
  intro k
  induction k with
  | zero =>
    intro fuel start acc hfuel _ hstop
    obtain ⟨ad, hv0, hs⟩ := hstop
    have hv : l.viewAsset start = Except.ok ad := hv0
    cases fuel with
    | zero => omega
    | succ f => simp [loadAllAssetsAux, hv, hs]
  | succ k ih =>
    intro fuel start acc hfuel hok hstop
    cases fuel with
    | zero => omega
    | succ f =>
      obtain ⟨ad, hv0, hns⟩ := hok 0 (Nat.succ_pos k)
      have hv : l.viewAsset start = Except.ok ad := hv0
      have step : loadAllAssetsAux l (f + 1) start acc =
          loadAllAssetsAux l f (start + 1) (acc ++ [assembleAsset l start ad]) := by
        simp [loadAllAssetsAux, hv, hns]
      have hok' : ∀ j, j < k → ∃ ad, l.viewAsset (start + 1 + j) = Except.ok ad ∧
          isSentinelOwner ad.owner = false := by
        intro j hj
        have h := hok (j + 1) (by omega)
        have harith : start + (j + 1) = start + 1 + j := by omega
        rwa [harith] at h
      have hstop' : ∃ ad, l.viewAsset (start + 1 + k) = Except.ok ad ∧
          isSentinelOwner ad.owner = true := by
        have harith : start + (k + 1) = start + 1 + k := by omega
        rwa [harith] at hstop
      have hres := ih f (start + 1) (acc ++ [assembleAsset l start ad]) (by omega) hok' hstop'
      rw [step, hres, List.map_append, List.append_assoc]
      congr 1
      have hhead : (assembleAsset l start ad).id = toString start := rfl
      rw [List.range_succ_eq_map]
      simp only [List.map_cons, List.map_nil, List.map_map, List.nil_append, List.cons_append,
        hhead, Nat.add_zero]
      congr 1
      apply List.map_congr_left
      intro j hj
      simp only [Function.comp_apply]
      congr 1
      omega

/-- C5: if ids 1..n read back with non-sentinel owners and id n+1 reads back
with the sentinel all-zero owner, `loadAllAssets` returns exactly the n
assets with ids "1", …, "n" in ascending order (for n = 0 the result is the
empty list, not an error). -/
theorem loadAllAssets_dense_enumeration (l : Ledger) (n fuel : Nat) (hfuel : n < fuel)
    (hok : ∀ i, 1 ≤ i → i ≤ n → ∃ ad, l.viewAsset i = Except.ok ad ∧
        isSentinelOwner ad.owner = false)
    (hsent : ∃ ad, l.viewAsset (n + 1) = Except.ok ad ∧ ad.owner = zeroAddress) :
    (loadAllAssets l fuel).map Asset.id = (List.range n).map (fun i => toString (i + 1)) := by
  have hok' : ∀ j, j < n → ∃ ad, l.viewAsset (1 + j) = Except.ok ad ∧
      isSentinelOwner ad.owner = false := by
    intro j hj
    have h := hok (j + 1) (by omega) (by omega)
    have harith : (j + 1) = 1 + j := by omega
    rwa [harith] at h
  have hstop' : ∃ ad, l.viewAsset (1 + n) = Except.ok ad ∧ isSentinelOwner ad.owner = true := by
    obtain ⟨ad, hv, ho⟩ := hsent
    refine ⟨ad, ?_, ?_⟩
    · have harith : (n + 1) = 1 + n := by omega
      rwa [harith] at hv
    · rw [ho]
      decide
  have h := loadAllAssetsAux_dense l n fuel 1 [] hfuel hok' hstop'
  unfold loadAllAssets
  rw [h]
  simp only [List.map_nil, List.nil_append]
  apply List.map_congr_left
  intro j hj
  congr 1
  omega

/-- Witness for C5 at the healthy ledger: exactly one asset, with id "1". -/
theorem loadAllAssets_dense_enumeration_witness :
    (loadAllAssets denseLedger 5).map Asset.id = (List.range 1).map (fun i => toString (i + 1)) :=
  loadAllAssets_dense_enumeration denseLedger 1 5 (by omega)
    (fun i h1 h2 => by
      have hi : i = 1 := by omega
      subst hi
      exact ⟨denseAsset1, rfl, by decide⟩)
    ⟨sentinelAssetData, rfl, rfl⟩

/-- C8: an asset is in `loadAccessibleAssets` for a wallet exactly when it is
in `loadAllAssets` and the wallet is its owner or appears in its reconciled
permission list (all comparisons case-insensitive). -/
theorem loadAccessibleAssets_membership (l : Ledger) (fuel : Nat) (walletAddress : String)
    (a : Asset) :
    a ∈ loadAccessibleAssets l fuel walletAddress ↔
      a ∈ loadAllAssets l fuel ∧
        (toLowerStr a.owner = toLowerStr walletAddress ∨
          ∃ p, p ∈ a.permissions ∧ toLowerStr p = toLowerStr walletAddress) := by
  simp [loadAccessibleAssets, List.mem_filter, List.any_eq_true]

/-- Witness for C8: asset 1 of the healthy ledger is accessible to the
grantee `0xBB` even though `0xBB` is not its owner. -/
theorem loadAccessibleAssets_membership_witness :
    assembleAsset denseLedger 1 denseAsset1 ∈ loadAccessibleAssets denseLedger 5 "0xBB" :=
  (loadAccessibleAssets_membership denseLedger 5 "0xBB" _).mpr
    ⟨by decide, Or.inr ⟨"0xbb", by decide, by decide⟩⟩

/-- C9: every element of `loadMyAssets` also occurs in `loadAllAssets` and
has an owner equal to the requested wallet under case-insensitive
comparison. -/
theorem loadMyAssets_subset_owner_match (l : Ledger) (fuel : Nat) (walletAddress : String)
    (a : Asset) (h : a ∈ loadMyAssets l fuel walletAddress) :
    a ∈ loadAllAssets l fuel ∧ toLowerStr a.owner = toLowerStr walletAddress := by
  unfold loadMyAssets at h
  rw [List.mem_filter] at h
  exact ⟨h.1, by simpa using h.2⟩

/-- Witness for C9 at the healthy ledger and owner `0xaa` (case differs from
the stored owner `0xAA`). -/
theorem loadMyAssets_subset_owner_match_witness :
    assembleAsset denseLedger 1 denseAsset1 ∈ loadAllAssets denseLedger 5 ∧
    toLowerStr (assembleAsset denseLedger 1 denseAsset1).owner = toLowerStr "0xaa" :=
  loadMyAssets_subset_owner_match denseLedger 5 "0xaa" _ (by decide)
